import Mathlib

/-!
Verification of the undo/redo history tracker implemented in
`src/src/app/components/my-form/my-form.component.ts` (class `MyFormComponent`).

The component keeps four pieces of mutable state — `formStateHistory`,
`currentHistoryIndex`, `undoRedoCounter`, `isLastRedoAction` — plus the reactive
form group `form`.  `ngOnInit` builds the form and subscribes `onInputChange` to
its `valueChanges` stream, so every `setValue` performed by `undo`/`redo`
synchronously re-enters `onInputChange` before the outer call returns.  We model
this re-entrant notification explicitly.

A JavaScript array read `a[i]` with `i < 0` or `i >= a.length` yields
`undefined`, and `FormGroup.setValue(undefined)` throws; we model a history read
as an `Option` value, `none` standing for that out-of-bounds fault.  In the
fault case the mutations performed before the throwing `setValue` (the counter
update and, for `redo`, the flag assignment) have already happened, so the
returned state keeps them.
-/

namespace MyForm

/-- Shape of one snapshot of the form, as produced by `this.form.getRawValue()`.
The `FormGroup` built by the component has exactly these eight controls
(lines 78–89 of the source); the declared `IFormData` interface also lists an
`email` field, but no `email` control is ever created, so snapshots do not
contain it.  `firstName`, `lastName` and `comment` start as `null`, hence
`Option String`. -/
structure FormSnapshot where
  firstName : Option String
  lastName : Option String
  comment : Option String
  age : Int
  agree : Bool
  gender : Bool
  birthday : String
  country : String
deriving DecidableEq

/-- Raw value of the freshly built form group: the component's
`initializeForm` installs controls with initial values
`{firstName: null, lastName: null, comment: null, age: 0, agree: false,
gender: false, birthday: '', country: ''}`. -/
def initialForm : FormSnapshot :=
  { firstName := none, lastName := none, comment := none, age := 0,
    agree := false, gender := false, birthday := "", country := "" }

/-- The component's mutable state: the history array, the cursor, the
undo/redo counter, the one-shot discard flag, and the current value of the
reactive form group. -/
structure MyFormState where
  formStateHistory : List FormSnapshot
  currentHistoryIndex : Int
  undoRedoCounter : Int
  isLastRedoAction : Bool
  form : FormSnapshot
deriving DecidableEq

/-- State right after `ngOnInit`: empty history, cursor `-1`, counter `0`,
flag `false`, form freshly initialized. -/
def initialState : MyFormState :=
  { formStateHistory := [], currentHistoryIndex := -1, undoRedoCounter := 0,
    isLastRedoAction := false, form := initialForm }

/-- JavaScript array indexing `h[i]`: `some` element when `0 ≤ i < h.length`,
otherwise `none` (JS `undefined`). -/
def jsIndex (h : List FormSnapshot) (i : Int) : Option FormSnapshot :=
  if 0 ≤ i then h[i.toNat]? else none

/-- First statement of `onInputChange` (source lines 97–100): if
`undoRedoCounter <= 0`, push the form's current raw value onto the history and
advance the cursor. -/
def pushStep (s : MyFormState) : MyFormState :=
  if s.undoRedoCounter ≤ 0 then
    { s with formStateHistory := s.formStateHistory ++ [s.form],
             currentHistoryIndex := s.currentHistoryIndex + 1 }
  else s

/-- Second statement of `onInputChange` (source lines 102–106): if
`undoRedoCounter == 0 && isLastRedoAction`, clear the flag, pop the newest
history entry and retreat the cursor.  (JS `pop` on an empty array is a
no-op on the array, matching `dropLast []= []`, but the cursor still
retreats.) -/
def discardStep (s : MyFormState) : MyFormState :=
  if s.undoRedoCounter = 0 ∧ s.isLastRedoAction = true then
    { s with isLastRedoAction := false,
             formStateHistory := s.formStateHistory.dropLast,
             currentHistoryIndex := s.currentHistoryIndex - 1 }
  else s

/-- `onInputChange` (source lines 95–107), the `valueChanges` handler: the two
sequential `if` statements above, run on the form's current value. -/
def onInputChange (s : MyFormState) : MyFormState :=
  discardStep (pushStep s)

/-- An external edit setting the form's value to `v`: the `valueChanges`
subscription fires `onInputChange` on the updated form.  This is the spec's
`recordChange(snapshot)` operation. -/
def recordChange (s : MyFormState) (v : FormSnapshot) : MyFormState :=
  onInputChange { s with form := v }

/-- `this.form.setValue(v)` performed inside `undo`/`redo`: the form value
becomes `v` and the subscription synchronously re-enters `onInputChange`. -/
def setValueEcho (s : MyFormState) (v : FormSnapshot) : MyFormState :=
  onInputChange { s with form := v }

/-- `this.form.setValue(x)` where `x` is a JS array read: if the read was in
bounds, apply the snapshot (triggering the re-entrant notification); if it
produced `undefined`, `setValue` throws — the state keeps the mutations made
before the call, and the first component `none` records the fault. -/
def setValueRead (s : MyFormState) :
    Option FormSnapshot → Option FormSnapshot × MyFormState
  | some v => (some v, setValueEcho s v)
  | none => (none, s)

theorem setValueRead_some (s : MyFormState) (v : FormSnapshot) :
    setValueRead s (some v) = (some v, setValueEcho s v) := rfl

theorem setValueRead_none (s : MyFormState) :
    setValueRead s none = (none, s) := rfl

/-- `undo` (source lines 114–120): increment the counter; if it is still at
most the cursor, apply `formStateHistory[currentHistoryIndex - undoRedoCounter]`
via `setValue` (triggering the re-entrant notification), else re-initialize the
form to the blank baseline.  Returns the snapshot applied to the form (`none`
when the history read is out of bounds and `setValue` faults). -/
def undo (s : MyFormState) : Option FormSnapshot × MyFormState :=
  if s.undoRedoCounter + 1 ≤ s.currentHistoryIndex then
    setValueRead { s with undoRedoCounter := s.undoRedoCounter + 1 }
      (jsIndex s.formStateHistory (s.currentHistoryIndex - (s.undoRedoCounter + 1)))
  else
    (some initialForm,
      { s with undoRedoCounter := s.undoRedoCounter + 1, form := initialForm })

/-- `redo` (source lines 127–135): decrement the counter; if it is still
positive, apply `formStateHistory[currentHistoryIndex - undoRedoCounter]`;
else set the discard flag and re-apply `formStateHistory[currentHistoryIndex]`.
Each `setValue` triggers the re-entrant notification.  Returns the snapshot
applied (`none` when the history read is out of bounds and `setValue`
faults). -/
def redo (s : MyFormState) : Option FormSnapshot × MyFormState :=
  if 0 < s.undoRedoCounter - 1 then
    setValueRead { s with undoRedoCounter := s.undoRedoCounter - 1 }
      (jsIndex s.formStateHistory (s.currentHistoryIndex - (s.undoRedoCounter - 1)))
  else
    setValueRead { s with undoRedoCounter := s.undoRedoCounter - 1,
                          isLastRedoAction := true }
      (jsIndex s.formStateHistory s.currentHistoryIndex)

/-- Running a sequence of external edits from the freshly initialized
component: each element of `vs` is one recorded edit. -/
def runEdits (vs : List FormSnapshot) : MyFormState :=
  vs.foldl recordChange initialState

/-- The state after `n` consecutive `undo()` calls from `s`. -/
def undoN (s : MyFormState) : Nat → MyFormState
  | 0 => s
  | n + 1 => (undo (undoN s n)).2

/-- Snapshot associated with edit number `m` (1-based) of the edit sequence
`vs`; `editSnapshot vs 0` is the pre-edit blank baseline, matching the spec's
scenario where undoing past the earliest edit yields the blank record. -/
def editSnapshot (vs : List FormSnapshot) : Nat → FormSnapshot
  | 0 => initialForm
  | m + 1 => vs.getD m initialForm

/-- The counter invariant stated by the spec:
`0 <= undoRedoCounter <= currentHistoryIndex + 1`. -/
def counterInv (s : MyFormState) : Prop :=
  0 ≤ s.undoRedoCounter ∧ s.undoRedoCounter ≤ s.currentHistoryIndex + 1

/-- The cursor invariant stated by the spec:
`-1 <= currentHistoryIndex < formStateHistory.length`. -/
def cursorInv (s : MyFormState) : Prop :=
  -1 ≤ s.currentHistoryIndex ∧
    s.currentHistoryIndex < (s.formStateHistory.length : Int)

/-! ### Characterization lemmas for the history read -/

theorem jsIndex_eq_some (h : List FormSnapshot) (i : Int) (h0 : 0 ≤ i)
    (h1 : i < (h.length : Int)) :
    jsIndex h i = some (h.getD i.toNat initialForm) := by
  have hlt : i.toNat < h.length := by omega
  unfold jsIndex
  rw [if_pos h0, List.getElem?_eq_getElem hlt]
  simp [List.getD_eq_getElem?_getD, List.getElem?_eq_getElem hlt]

theorem jsIndex_neg (h : List FormSnapshot) (i : Int) (h0 : i < 0) :
    jsIndex h i = none := by
  unfold jsIndex
  rw [if_neg (by omega)]

theorem jsIndex_ge (h : List FormSnapshot) (i : Int)
    (h1 : (h.length : Int) ≤ i) : jsIndex h i = none := by
  unfold jsIndex
  split
  · exact List.getElem?_eq_none (by omega)
  · rfl

/-! ### Characterization lemmas for `onInputChange` in its four cases -/

theorem pushStep_le (s : MyFormState) (h : s.undoRedoCounter ≤ 0) :
    pushStep s =
      { s with formStateHistory := s.formStateHistory ++ [s.form],
               currentHistoryIndex := s.currentHistoryIndex + 1 } := by
  unfold pushStep
  rw [if_pos h]

theorem pushStep_pos (s : MyFormState) (h : 0 < s.undoRedoCounter) :
    pushStep s = s := by
  unfold pushStep
  rw [if_neg (by omega)]

theorem discardStep_hit (s : MyFormState) (h : s.undoRedoCounter = 0)
    (hf : s.isLastRedoAction = true) :
    discardStep s =
      { s with isLastRedoAction := false,
               formStateHistory := s.formStateHistory.dropLast,
               currentHistoryIndex := s.currentHistoryIndex - 1 } := by
  unfold discardStep
  rw [if_pos ⟨h, hf⟩]

theorem discardStep_miss (s : MyFormState)
    (h : ¬(s.undoRedoCounter = 0 ∧ s.isLastRedoAction = true)) :
    discardStep s = s := by
  unfold discardStep
  rw [if_neg h]

/-- A notification arriving with a positive counter is absorbed entirely. -/
theorem onInputChange_pos (s : MyFormState) (h : 0 < s.undoRedoCounter) :
    onInputChange s = s := by
  unfold onInputChange
  rw [pushStep_pos s h, discardStep_miss s (by rintro ⟨h2, h3⟩; omega)]

/-- A notification at counter `0` with the flag clear appends the form value
and advances the cursor. -/
theorem onInputChange_zero_noflag (s : MyFormState) (h : s.undoRedoCounter = 0)
    (hf : s.isLastRedoAction = false) :
    onInputChange s =
      { s with formStateHistory := s.formStateHistory ++ [s.form],
               currentHistoryIndex := s.currentHistoryIndex + 1 } := by
  unfold onInputChange
  rw [pushStep_le s (by omega), discardStep_miss _ (by rintro ⟨h2, h3⟩; simp_all)]

/-- A notification at counter `0` with the flag set pushes and immediately
discards: the net effect is only that the flag clears. -/
theorem onInputChange_zero_flag (s : MyFormState) (h : s.undoRedoCounter = 0)
    (hf : s.isLastRedoAction = true) :
    onInputChange s = { s with isLastRedoAction := false } := by
  obtain ⟨hist, c, n, f, fv⟩ := s
  simp only at h hf
  subst h hf
  unfold onInputChange
  rw [pushStep_le _ (by simp), discardStep_hit _ rfl rfl]
  simp

/-- A notification with a negative counter appends without discarding (the
discard guard demands counter exactly `0`), so the flag survives. -/
theorem onInputChange_neg (s : MyFormState) (h : s.undoRedoCounter < 0) :
    onInputChange s =
      { s with formStateHistory := s.formStateHistory ++ [s.form],
               currentHistoryIndex := s.currentHistoryIndex + 1 } := by
  unfold onInputChange
  rw [pushStep_le s (by omega)]
  exact discardStep_miss _ (by rintro ⟨h2, h3⟩; simp_all)

/-- The re-entrant notification triggered by `setValue` inside `undo` (and
inside in-range `redo`) carries a positive counter, so only the form value
changes. -/
theorem setValueEcho_pos (s : MyFormState) (v : FormSnapshot)
    (h : 0 < s.undoRedoCounter) :
    setValueEcho s v = { s with form := v } := by
  unfold setValueEcho
  exact onInputChange_pos { s with form := v } h

/-! ### The state reached by a sequence of recorded edits -/

theorem foldl_recordChange (vs : List FormSnapshot) :
    ∀ s : MyFormState, s.undoRedoCounter = 0 → s.isLastRedoAction = false →
      vs.foldl recordChange s =
        { formStateHistory := s.formStateHistory ++ vs,
          currentHistoryIndex := s.currentHistoryIndex + vs.length,
          undoRedoCounter := 0, isLastRedoAction := false,
          form := vs.getLastD s.form } := by
  induction vs with
  | nil =>
      intro s h hf
      obtain ⟨hist, c, n, f, fv⟩ := s
      simp_all [List.getLastD]
  | cons v tl ih =>
      intro s h hf
      obtain ⟨hist, c, n, f, fv⟩ := s
      simp only at h hf
      subst h hf
      have hrc : recordChange ⟨hist, c, 0, false, fv⟩ v =
          ⟨hist ++ [v], c + 1, 0, false, v⟩ := by
        unfold recordChange
        rw [onInputChange_zero_noflag ⟨hist, c, 0, false, v⟩ rfl rfl]
      rw [List.foldl_cons, hrc, ih ⟨hist ++ [v], c + 1, 0, false, v⟩ rfl rfl]
      simp only [MyFormState.mk.injEq, List.append_assoc, List.singleton_append,
        List.length_cons, List.getLastD_cons, true_and, and_true]
      push_cast
      ring

/-- The component state after recording the edit sequence `vs` from the
freshly initialized component. -/
theorem runEdits_spec (vs : List FormSnapshot) :
    runEdits vs =
      { formStateHistory := vs,
        currentHistoryIndex := -1 + vs.length,
        undoRedoCounter := 0, isLastRedoAction := false,
        form := vs.getLastD initialForm } := by
  unfold runEdits
  rw [foldl_recordChange vs initialState rfl rfl]
  simp [initialState]

/-! ### Characterization lemmas for `undo` -/

/-- An in-range `undo` walks one step backward: it applies
`formStateHistory[currentHistoryIndex - (undoRedoCounter + 1)]`, and the
re-entrant notification (counter now positive) is absorbed. -/
theorem undo_eq_inRange (s : MyFormState)
    (h0 : 0 ≤ s.undoRedoCounter)
    (h1 : s.undoRedoCounter + 1 ≤ s.currentHistoryIndex)
    (h2 : s.currentHistoryIndex < (s.formStateHistory.length : Int)) :
    undo s =
      (some (s.formStateHistory.getD
          (s.currentHistoryIndex - (s.undoRedoCounter + 1)).toNat initialForm),
       { s with undoRedoCounter := s.undoRedoCounter + 1,
                form := s.formStateHistory.getD
                  (s.currentHistoryIndex - (s.undoRedoCounter + 1)).toNat initialForm }) := by
  unfold undo
  rw [if_pos h1, jsIndex_eq_some _ _ (by omega) (by omega), setValueRead_some]
  rw [setValueEcho_pos _ _ (by show (0:Int) < s.undoRedoCounter + 1; omega)]

/-- An exhausted `undo` (counter would exceed the cursor) re-initializes the
form to the blank baseline; no notification fires. -/
theorem undo_eq_exhausted (s : MyFormState)
    (h1 : s.currentHistoryIndex < s.undoRedoCounter + 1) :
    undo s =
      (some initialForm,
       { s with undoRedoCounter := s.undoRedoCounter + 1, form := initialForm }) := by
  unfold undo
  rw [if_neg (by omega)]

/-- Whatever branch `undo` takes from a state with a nonnegative counter, the
history, cursor and flag are untouched and the counter grows by one. -/
theorem undo_frame (s : MyFormState) (h : 0 ≤ s.undoRedoCounter) :
    (undo s).2.formStateHistory = s.formStateHistory ∧
    (undo s).2.currentHistoryIndex = s.currentHistoryIndex ∧
    (undo s).2.isLastRedoAction = s.isLastRedoAction ∧
    (undo s).2.undoRedoCounter = s.undoRedoCounter + 1 := by
  unfold undo
  split
  · cases hj : jsIndex s.formStateHistory (s.currentHistoryIndex - (s.undoRedoCounter + 1)) with
    | some v =>
        rw [setValueRead_some,
          setValueEcho_pos _ _ (by show (0:Int) < s.undoRedoCounter + 1; omega)]
        exact ⟨rfl, rfl, rfl, rfl⟩
    | none =>
        rw [setValueRead_none]
        exact ⟨rfl, rfl, rfl, rfl⟩
  · exact ⟨rfl, rfl, rfl, rfl⟩

/-! ### Characterization lemmas for `redo` -/

/-- An in-range `redo` (counter still positive after the decrement) moves one
step forward; the re-entrant notification is absorbed. -/
theorem redo_eq_inRange (s : MyFormState)
    (h1 : 0 < s.undoRedoCounter - 1)
    (hlo : s.undoRedoCounter - 1 ≤ s.currentHistoryIndex)
    (hhi : s.currentHistoryIndex < (s.formStateHistory.length : Int)) :
    redo s =
      (some (s.formStateHistory.getD
          (s.currentHistoryIndex - (s.undoRedoCounter - 1)).toNat initialForm),
       { s with undoRedoCounter := s.undoRedoCounter - 1,
                form := s.formStateHistory.getD
                  (s.currentHistoryIndex - (s.undoRedoCounter - 1)).toNat initialForm }) := by
  unfold redo
  rw [if_pos h1, jsIndex_eq_some _ _ (by omega) (by omega), setValueRead_some]
  rw [setValueEcho_pos _ _ (by show (0:Int) < s.undoRedoCounter - 1; omega)]

/-- A redo-to-latest with the counter reaching exactly `0`: the discard flag is
set, the newest entry is re-applied, and the re-entrant notification
push-then-pops, clearing the flag and leaving the history unchanged. -/
theorem redo_eq_latest_zero (s : MyFormState)
    (h1 : s.undoRedoCounter = 1)
    (hlo : 0 ≤ s.currentHistoryIndex)
    (hhi : s.currentHistoryIndex < (s.formStateHistory.length : Int)) :
    redo s =
      (some (s.formStateHistory.getD s.currentHistoryIndex.toNat initialForm),
       { s with undoRedoCounter := s.undoRedoCounter - 1,
                isLastRedoAction := false,
                form := s.formStateHistory.getD s.currentHistoryIndex.toNat initialForm }) := by
  unfold redo
  rw [if_neg (by omega), jsIndex_eq_some _ _ hlo hhi, setValueRead_some]
  unfold setValueEcho
  rw [onInputChange_zero_flag _ (by show s.undoRedoCounter - 1 = 0; omega) rfl]

/-- A redo-to-latest with the counter going negative: the discard flag is set
and the newest entry re-applied, but the re-entrant notification appends a
duplicate without discarding it (the discard guard demands counter exactly
`0`), and the flag survives. -/
theorem redo_eq_latest_neg (s : MyFormState)
    (h1 : s.undoRedoCounter ≤ 0)
    (hlo : 0 ≤ s.currentHistoryIndex)
    (hhi : s.currentHistoryIndex < (s.formStateHistory.length : Int)) :
    redo s =
      (some (s.formStateHistory.getD s.currentHistoryIndex.toNat initialForm),
       { s with undoRedoCounter := s.undoRedoCounter - 1,
                isLastRedoAction := true,
                formStateHistory := s.formStateHistory ++
                  [s.formStateHistory.getD s.currentHistoryIndex.toNat initialForm],
                currentHistoryIndex := s.currentHistoryIndex + 1,
                form := s.formStateHistory.getD s.currentHistoryIndex.toNat initialForm }) := by
  unfold redo
  rw [if_neg (by omega), jsIndex_eq_some _ _ hlo hhi, setValueRead_some]
  unfold setValueEcho
  rw [onInputChange_neg _ (by show s.undoRedoCounter - 1 < 0; omega)]

/-- Whatever branch `redo` takes from a state with a positive counter, the
history, the cursor and the flag's effect on them are frame-preserved: the
cursor is unchanged and the counter shrinks by one. -/
theorem redo_frame_pos (s : MyFormState) (h : 1 ≤ s.undoRedoCounter) :
    (redo s).2.formStateHistory = s.formStateHistory ∧
    (redo s).2.currentHistoryIndex = s.currentHistoryIndex ∧
    (redo s).2.undoRedoCounter = s.undoRedoCounter - 1 := by
  unfold redo
  split
  next hc =>
    cases hj : jsIndex s.formStateHistory (s.currentHistoryIndex - (s.undoRedoCounter - 1)) with
    | some v =>
        rw [setValueRead_some,
          setValueEcho_pos _ _ (by show (0:Int) < s.undoRedoCounter - 1; omega)]
        exact ⟨rfl, rfl, rfl⟩
    | none =>
        rw [setValueRead_none]
        exact ⟨rfl, rfl, rfl⟩
  next hc =>
    cases hj : jsIndex s.formStateHistory s.currentHistoryIndex with
    | some v =>
        rw [setValueRead_some]
        unfold setValueEcho
        rw [onInputChange_zero_flag _ (by show s.undoRedoCounter - 1 = 0; omega) rfl]
        exact ⟨rfl, rfl, rfl⟩
    | none =>
        rw [setValueRead_none]
        exact ⟨rfl, rfl, rfl⟩

/-! ### Preservation of the cursor invariant -/

theorem cursorInv_onInputChange (s : MyFormState) (h : cursorInv s) :
    cursorInv (onInputChange s) := by
  obtain ⟨hinv1, hinv2⟩ := h
  rcases lt_trichotomy s.undoRedoCounter 0 with hn | hn | hn
  · rw [onInputChange_neg s hn]
    constructor
    · show -1 ≤ s.currentHistoryIndex + 1
      omega
    · show s.currentHistoryIndex + 1 < ((s.formStateHistory ++ [s.form]).length : Int)
      simp only [List.length_append, List.length_cons, List.length_nil]
      push_cast
      omega
  · cases hf : s.isLastRedoAction with
    | false =>
        rw [onInputChange_zero_noflag s hn hf]
        constructor
        · show -1 ≤ s.currentHistoryIndex + 1
          omega
        · show s.currentHistoryIndex + 1 < ((s.formStateHistory ++ [s.form]).length : Int)
          simp only [List.length_append, List.length_cons, List.length_nil]
          push_cast
          omega
    | true =>
        rw [onInputChange_zero_flag s hn hf]
        exact ⟨hinv1, hinv2⟩
  · rw [onInputChange_pos s hn]
    exact ⟨hinv1, hinv2⟩

theorem cursorInv_setValueRead (s : MyFormState) (o : Option FormSnapshot)
    (h : cursorInv s) : cursorInv (setValueRead s o).2 := by
  cases o with
  | some v =>
      rw [setValueRead_some]
      exact cursorInv_onInputChange { s with form := v } h
  | none =>
      rw [setValueRead_none]
      exact h

/-! ### The state after `j` consecutive `undo` calls on a recorded history -/

theorem undoN_components (vs : List FormSnapshot) (j : Nat) :
    (undoN (runEdits vs) j).formStateHistory = vs ∧
    (undoN (runEdits vs) j).currentHistoryIndex = -1 + vs.length ∧
    (undoN (runEdits vs) j).undoRedoCounter = (j : Int) ∧
    (undoN (runEdits vs) j).isLastRedoAction = false := by
  induction j with
  | zero =>
      show (runEdits vs).formStateHistory = vs ∧ _ ∧ _ ∧ _
      rw [runEdits_spec]
      exact ⟨rfl, rfl, rfl, rfl⟩
  | succ n ih =>
      obtain ⟨e1, e2, e3, e4⟩ := ih
      obtain ⟨f1, f2, f3, f4⟩ :=
        undo_frame (undoN (runEdits vs) n) (by rw [e3]; exact Int.natCast_nonneg n)
      refine ⟨?_, ?_, ?_, ?_⟩
      · show (undo (undoN (runEdits vs) n)).2.formStateHistory = vs
        rw [f1, e1]
      · show (undo (undoN (runEdits vs) n)).2.currentHistoryIndex = -1 + vs.length
        rw [f2, e2]
      · show (undo (undoN (runEdits vs) n)).2.undoRedoCounter = ((n + 1 : Nat) : Int)
        rw [f4, e3]
        push_cast
        ring
      · show (undo (undoN (runEdits vs) n)).2.isLastRedoAction = false
        rw [f3, e4]

/-! ### Concrete snapshots for witnesses and counterexamples -/

/-- A concrete edit snapshot: the user set the age to 1. -/
def exA : FormSnapshot := { initialForm with age := 1 }

/-- A concrete edit snapshot: the user set the age to 2. -/
def exB : FormSnapshot := { initialForm with age := 2 }

/-! ### Claim theorems -/

/-- C6: after the `k` recorded edits `vs` and `k + 1` consecutive `undo()`
calls, the `(k+1)`-th call returns the initial blank record shape — not a
no-op and not an error. -/
theorem undo_exhaustion_baseline (vs : List FormSnapshot) :
    (undo (undoN (runEdits vs) vs.length)).1 = some initialForm := by
  obtain ⟨e1, e2, e3, e4⟩ := undoN_components vs vs.length
  rw [undo_eq_exhausted _ (by rw [e2, e3]; omega)]

/-- C10: whenever `undo` takes the exhaustion branch (the incremented counter
exceeds the cursor), the form is reset to exactly the fixed blank record
`{firstName: null, lastName: null, comment: null, age: 0, agree: false,
gender: false, birthday: '', country: ''}` — identical to the freshly
initialized form — regardless of the history's contents. -/
theorem undo_exhaustion_form (s : MyFormState)
    (h : s.currentHistoryIndex < s.undoRedoCounter + 1) :
    (undo s).1 = some initialForm ∧ (undo s).2.form = initialForm ∧
    initialForm =
      { firstName := none, lastName := none, comment := none, age := 0,
        agree := false, gender := false, birthday := "", country := "" } := by
  rw [undo_eq_exhausted s h]
  exact ⟨rfl, rfl, rfl⟩

theorem undo_exhaustion_form_witness :
    initialState.currentHistoryIndex < initialState.undoRedoCounter + 1 ∧
    ((undo initialState).1 = some initialForm ∧
     (undo initialState).2.form = initialForm ∧
     initialForm =
       { firstName := none, lastName := none, comment := none, age := 0,
         agree := false, gender := false, birthday := "", country := "" }) :=
  ⟨by decide, undo_exhaustion_form initialState (by decide)⟩

/-- C7 (amended): for a state with offset `0` *and the discard flag clear*,
`recordChange` appends exactly the incoming snapshot and advances the cursor
by exactly one.  (With the flag set, the appended entry is immediately
discarded again — see the counterexample.) -/
theorem recordChange_appends (s : MyFormState) (v : FormSnapshot)
    (h : s.undoRedoCounter = 0) (hf : s.isLastRedoAction = false) :
    (recordChange s v).formStateHistory = s.formStateHistory ++ [v] ∧
    (recordChange s v).currentHistoryIndex = s.currentHistoryIndex + 1 := by
  unfold recordChange
  rw [onInputChange_zero_noflag _ (by show s.undoRedoCounter = 0; exact h)
    (by show s.isLastRedoAction = false; exact hf)]
  exact ⟨rfl, rfl⟩

theorem recordChange_appends_witness :
    initialState.undoRedoCounter = 0 ∧ initialState.isLastRedoAction = false ∧
    ((recordChange initialState exA).formStateHistory =
        initialState.formStateHistory ++ [exA] ∧
     (recordChange initialState exA).currentHistoryIndex =
        initialState.currentHistoryIndex + 1) :=
  ⟨rfl, rfl, recordChange_appends initialState exA rfl rfl⟩

/-- A state with offset `0` but the discard flag still set (as left behind by
a redo whose counter went negative): `recordChange` pushes and immediately
pops here, so the history does not grow — refuting C7 as universally stated
over all states with offset `0`. -/
def flaggedState : MyFormState :=
  { formStateHistory := [exA], currentHistoryIndex := 0, undoRedoCounter := 0,
    isLastRedoAction := true, form := exA }

theorem recordChange_appends_cex :
    (recordChange flaggedState exB).formStateHistory.length ≠
      flaggedState.formStateHistory.length + 1 := by
  decide

/-- C8: for every state with positive offset, `recordChange` leaves the
history, the cursor and the discard flag unchanged — the notification is
absorbed with no history mutation. -/
theorem recordChange_absorbed (s : MyFormState) (v : FormSnapshot)
    (h : 0 < s.undoRedoCounter) :
    (recordChange s v).formStateHistory = s.formStateHistory ∧
    (recordChange s v).currentHistoryIndex = s.currentHistoryIndex ∧
    (recordChange s v).isLastRedoAction = s.isLastRedoAction := by
  unfold recordChange
  rw [onInputChange_pos _ (by show 0 < s.undoRedoCounter; exact h)]
  exact ⟨rfl, rfl, rfl⟩

/-- A state one step into an undo sequence, used to exercise C8. -/
def midUndoState : MyFormState :=
  { formStateHistory := [exA, exB], currentHistoryIndex := 1,
    undoRedoCounter := 1, isLastRedoAction := false, form := exA }

theorem recordChange_absorbed_witness :
    0 < midUndoState.undoRedoCounter ∧
    ((recordChange midUndoState exB).formStateHistory =
        midUndoState.formStateHistory ∧
     (recordChange midUndoState exB).currentHistoryIndex =
        midUndoState.currentHistoryIndex ∧
     (recordChange midUndoState exB).isLastRedoAction =
        midUndoState.isLastRedoAction) :=
  ⟨by decide, recordChange_absorbed midUndoState exB (by decide)⟩

/-- C2 (amended): `recordChange` preserves the counter invariant
`0 ≤ undoRedoCounter ≤ currentHistoryIndex + 1`; `undo` preserves it provided
the counter had not yet reached `cursor + 1`; `redo` preserves it provided the
counter was positive.  The claim as stated fails: an `undo` from a state with
counter `= cursor + 1` — e.g. the very first operation on the fresh tracker —
drives the counter above `cursor + 1` (see the counterexample). -/
theorem counterInv_preservation (s : MyFormState) (v : FormSnapshot) :
    (counterInv s → counterInv (recordChange s v)) ∧
    (counterInv s → s.undoRedoCounter ≤ s.currentHistoryIndex →
      counterInv (undo s).2) ∧
    (counterInv s → 1 ≤ s.undoRedoCounter → counterInv (redo s).2) := by
  refine ⟨?_, ?_, ?_⟩
  · rintro ⟨hlo, hhi⟩
    unfold recordChange
    rcases lt_or_eq_of_le hlo with hn | hn
    · rw [onInputChange_pos _ (by show 0 < s.undoRedoCounter; omega)]
      exact ⟨hlo, hhi⟩
    · cases hf : s.isLastRedoAction with
      | false =>
          rw [onInputChange_zero_noflag _ (by show s.undoRedoCounter = 0; omega) rfl]
          constructor
          · show 0 ≤ s.undoRedoCounter
            omega
          · show s.undoRedoCounter ≤ s.currentHistoryIndex + 1 + 1
            omega
      | true =>
          rw [onInputChange_zero_flag _ (by show s.undoRedoCounter = 0; omega) rfl]
          exact ⟨hlo, hhi⟩
  · rintro ⟨hlo, hhi⟩ hcc
    obtain ⟨f1, f2, f3, f4⟩ := undo_frame s hlo
    unfold counterInv
    rw [f2, f4]
    omega
  · rintro ⟨hlo, hhi⟩ hpos
    obtain ⟨f1, f2, f3⟩ := redo_frame_pos s hpos
    unfold counterInv
    rw [f2, f3]
    omega

theorem counterInv_preservation_witness :
    counterInv initialState ∧ counterInv (recordChange initialState exA) :=
  ⟨⟨by decide, by decide⟩,
    (counterInv_preservation initialState exA).1 ⟨by decide, by decide⟩⟩

/-- After `k` edits, `k + 1` undos drive the counter to `k + 1` while the
cursor stays at `k - 1`; already the single `undo()` on the fresh tracker
(here: `k = 0`) leaves `undoRedoCounter = 1 > currentHistoryIndex + 1 = 0`,
refuting C2's claim that no call sequence can break the invariant. -/
theorem counterInv_cex :
    0 < (undo initialState).2.undoRedoCounter ∧
    ¬((undo initialState).2.undoRedoCounter ≤
        (undo initialState).2.currentHistoryIndex + 1) := by
  decide

/-- C3 (amended): under the spec's counter and cursor invariants, `undo`
never reads the history out of bounds, and `redo` never does provided the
history is nonempty (`0 ≤ cursor`); but the claim as stated fails: `redo()`
called without any prior `recordChange` reads `History[-1]` and faults
rather than falling back (see the counterexample). -/
theorem no_oob_reads (s : MyFormState) :
    (0 ≤ s.undoRedoCounter →
      s.currentHistoryIndex < (s.formStateHistory.length : Int) →
      (undo s).1.isSome = true) ∧
    (0 ≤ s.undoRedoCounter → s.undoRedoCounter ≤ s.currentHistoryIndex + 1 →
      0 ≤ s.currentHistoryIndex →
      s.currentHistoryIndex < (s.formStateHistory.length : Int) →
      (redo s).1.isSome = true) := by
  constructor
  · intro h0 h2
    by_cases hc : s.undoRedoCounter + 1 ≤ s.currentHistoryIndex
    · rw [undo_eq_inRange s h0 hc h2]
      rfl
    · rw [undo_eq_exhausted s (by omega)]
      rfl
  · intro h0 h1 hlo hhi
    by_cases hc : 0 < s.undoRedoCounter - 1
    · rw [redo_eq_inRange s hc (by omega) hhi]
      rfl
    · by_cases hone : s.undoRedoCounter = 1
      · rw [redo_eq_latest_zero s hone hlo hhi]
        rfl
      · rw [redo_eq_latest_neg s (by omega) hlo hhi]
        rfl

/-- A state with exactly one recorded edit, used to exercise C3's amended
bounds. -/
def oneEditState : MyFormState :=
  { formStateHistory := [exA], currentHistoryIndex := 0, undoRedoCounter := 0,
    isLastRedoAction := false, form := exA }

theorem no_oob_reads_witness :
    (0 ≤ oneEditState.undoRedoCounter ∧
      oneEditState.currentHistoryIndex <
        (oneEditState.formStateHistory.length : Int) ∧
      oneEditState.undoRedoCounter ≤ oneEditState.currentHistoryIndex + 1 ∧
      0 ≤ oneEditState.currentHistoryIndex) ∧
    (undo oneEditState).1.isSome = true ∧ (redo oneEditState).1.isSome = true :=
  ⟨⟨by decide, by decide, by decide, by decide⟩,
    (no_oob_reads oneEditState).1 (by decide) (by decide),
    (no_oob_reads oneEditState).2 (by decide) (by decide) (by decide) (by decide)⟩

/-- Calling `redo()` on the fresh tracker (history empty, cursor `-1`) reads
`formStateHistory[-1]`, i.e. JS `undefined`: the `setValue(undefined)` fault,
not a defensive fallback — refuting C3 as stated. -/
theorem redo_empty_cex : (redo initialState).1 = none := by
  decide

/-- C9: the invariant `-1 ≤ currentHistoryIndex < formStateHistory.length`
holds in the initial state and is preserved by every `recordChange`, `undo`
and `redo` operation, including the re-entrant `recordChange` triggered by
the `setValue` inside `redo`. -/
theorem cursorInv_preservation (s : MyFormState) (v : FormSnapshot)
    (h : cursorInv s) :
    cursorInv initialState ∧ cursorInv (recordChange s v) ∧
    cursorInv (undo s).2 ∧ cursorInv (redo s).2 := by
  refine ⟨⟨by decide, by decide⟩, ?_, ?_, ?_⟩
  · exact cursorInv_onInputChange { s with form := v } h
  · unfold undo
    split
    · exact cursorInv_setValueRead _ _ h
    · exact h
  · unfold redo
    split
    · exact cursorInv_setValueRead _ _ h
    · exact cursorInv_setValueRead _ _ h

theorem cursorInv_preservation_witness :
    cursorInv oneEditState ∧
    (cursorInv initialState ∧ cursorInv (recordChange oneEditState exB) ∧
     cursorInv (undo oneEditState).2 ∧ cursorInv (redo oneEditState).2) :=
  ⟨⟨by decide, by decide⟩,
    cursorInv_preservation oneEditState exB ⟨by decide, by decide⟩⟩

/-- The last recorded snapshot is the one at index `length - 1`. -/
theorem getLastD_eq_getD (vs : List FormSnapshot) (d : FormSnapshot) :
    vs.getLastD d = vs.getD (vs.length - 1) d := by
  rw [List.getLastD_eq_getLast?, List.getLast?_eq_getElem?, List.getD_eq_getElem?_getD]

/-- C4: after the `k` recorded edits `vs`, within a run of `j` consecutive
`undo()` calls (`1 ≤ i ≤ j ≤ k`), the `i`-th call returns the snapshot of
edit `k - i` — each undo walks strictly one step backward through the
history, edit `0` denoting the pre-edit blank baseline as in the spec's
scenario (`k` edits, the `k`-th undo yields the blank record). -/
theorem undo_walks_backward (vs : List FormSnapshot) (i j : Nat)
    (h1 : 1 ≤ i) (h2 : i ≤ j) (h3 : j ≤ vs.length) :
    (undo (undoN (runEdits vs) (i - 1))).1 =
      some (editSnapshot vs (vs.length - i)) := by
  obtain ⟨e1, e2, e3, e4⟩ := undoN_components vs (i - 1)
  by_cases hcase : i < vs.length
  · have hr := undo_eq_inRange (undoN (runEdits vs) (i - 1))
      (by rw [e3]; exact Int.natCast_nonneg _)
      (by rw [e3, e2]; omega)
      (by rw [e2, e1]; omega)
    rw [e1, e2, e3] at hr
    rw [hr]
    have harg : ((-1 + (vs.length : Int)) - (((i - 1 : Nat) : Int) + 1)).toNat =
        vs.length - i - 1 := by omega
    rw [harg]
    have hm : vs.length - i = (vs.length - i - 1) + 1 := by omega
    rw [hm]
    rfl
  · have hr := undo_eq_exhausted (undoN (runEdits vs) (i - 1))
      (by rw [e2, e3]; omega)
    rw [hr]
    have hz : vs.length - i = 0 := by omega
    rw [hz]
    rfl

theorem undo_walks_backward_witness :
    ((1 : Nat) ≤ 1 ∧ 1 ≤ 2 ∧ 2 ≤ ([exA, exB] : List FormSnapshot).length) ∧
    (undo (undoN (runEdits [exA, exB]) (1 - 1))).1 =
      some (editSnapshot [exA, exB] ([exA, exB].length - 1)) :=
  ⟨⟨by decide, by decide, by decide⟩,
    undo_walks_backward [exA, exB] 1 2 (by decide) (by decide) (by decide)⟩

/-- C5: after the recorded edits `vs` (at least one), calling `undo()` once
and then `redo()` once returns exactly the snapshot that was current
immediately before the `undo()` — the latest edit — and the history length
after both calls (re-entrant notifications included) equals the length
before them. -/
theorem undo_redo_roundtrip (vs : List FormSnapshot) (h : vs ≠ []) :
    (redo (undo (runEdits vs)).2).1 = some ((runEdits vs).form) ∧
    (runEdits vs).form = vs.getLastD initialForm ∧
    (redo (undo (runEdits vs)).2).2.formStateHistory.length =
      (runEdits vs).formStateHistory.length := by
  have hk : 0 < vs.length := List.length_pos.mpr h
  have r1 : (runEdits vs).formStateHistory = vs := by rw [runEdits_spec]
  have r2 : (runEdits vs).currentHistoryIndex = -1 + vs.length := by
    rw [runEdits_spec]
  have r3 : (runEdits vs).undoRedoCounter = 0 := by rw [runEdits_spec]
  have r4 : (runEdits vs).form = vs.getLastD initialForm := by rw [runEdits_spec]
  obtain ⟨f1, f2, f3, f4⟩ := undo_frame (runEdits vs) (by rw [r3])
  have hs1c : (undo (runEdits vs)).2.undoRedoCounter = 1 := by
    rw [f4, r3]
    omega
  have hr := redo_eq_latest_zero (undo (runEdits vs)).2 hs1c
    (by rw [f2, r2]; omega)
    (by rw [f2, r2, f1, r1]; omega)
  rw [f1, f2, r1, r2] at hr
  refine ⟨?_, r4, ?_⟩
  · rw [hr, r4]
    show some (vs.getD (-1 + (vs.length : Int)).toNat initialForm) = _
    have htn : (-1 + (vs.length : Int)).toNat = vs.length - 1 := by omega
    rw [htn, getLastD_eq_getD]
  · rw [hr, r1]

theorem undo_redo_roundtrip_witness :
    ([exA] : List FormSnapshot) ≠ [] ∧
    ((redo (undo (runEdits [exA])).2).1 = some ((runEdits [exA]).form) ∧
     (runEdits [exA]).form = [exA].getLastD initialForm ∧
     (redo (undo (runEdits [exA])).2).2.formStateHistory.length =
       (runEdits [exA]).formStateHistory.length) :=
  ⟨by decide, undo_redo_roundtrip [exA] (by decide)⟩

/-- C1 (amended): after `k ≥ 2` recorded edits, one `undo()`, then two
consecutive `redo()` calls: both redos return the latest edit's snapshot,
and after the first redo the history length is still `k`; but the second
redo's re-entrant notification appends a duplicate of the latest entry
(its counter has gone negative, so the discard guard does not fire),
leaving the history at length `k + 1` — refuting clause (b) of the claim. -/
theorem redo_twice_duplicates (vs : List FormSnapshot) (h : 2 ≤ vs.length) :
    (redo (undo (runEdits vs)).2).1 = some (vs.getLastD initialForm) ∧
    (redo (undo (runEdits vs)).2).2.formStateHistory.length = vs.length ∧
    (redo (redo (undo (runEdits vs)).2).2).1 = some (vs.getLastD initialForm) ∧
    (redo (redo (undo (runEdits vs)).2).2).2.formStateHistory.length =
      vs.length + 1 := by
  have r1 : (runEdits vs).formStateHistory = vs := by rw [runEdits_spec]
  have r2 : (runEdits vs).currentHistoryIndex = -1 + vs.length := by
    rw [runEdits_spec]
  have r3 : (runEdits vs).undoRedoCounter = 0 := by rw [runEdits_spec]
  obtain ⟨f1, f2, f3, f4⟩ := undo_frame (runEdits vs) (by rw [r3])
  have hs1c : (undo (runEdits vs)).2.undoRedoCounter = 1 := by
    rw [f4, r3]
    omega
  have hr := redo_eq_latest_zero (undo (runEdits vs)).2 hs1c
    (by rw [f2, r2]; omega)
    (by rw [f2, r2, f1, r1]; omega)
  rw [f1, f2, r1, r2, hs1c] at hr
  have hlast : vs.getD (-1 + (vs.length : Int)).toNat initialForm =
      vs.getLastD initialForm := by
    have htn : (-1 + (vs.length : Int)).toNat = vs.length - 1 := by omega
    rw [htn, getLastD_eq_getD]
  refine ⟨?_, ?_, ?_, ?_⟩
  · rw [hr]
    show some (vs.getD (-1 + (vs.length : Int)).toNat initialForm) = _
    rw [hlast]
  · rw [hr]
  · rw [hr]
    rw [redo_eq_latest_neg _ (by show (1:Int) - 1 ≤ 0; omega)
      (by show (0:Int) ≤ -1 + vs.length; omega)
      (by show -1 + (vs.length : Int) < _; rw [hlast]; push_cast; omega)]
    show some (vs.getD (-1 + (vs.length : Int)).toNat initialForm) = _
    rw [hlast]
  · rw [hr]
    rw [redo_eq_latest_neg _ (by show (1:Int) - 1 ≤ 0; omega)
      (by show (0:Int) ≤ -1 + vs.length; omega)
      (by show -1 + (vs.length : Int) < _; rw [hlast]; push_cast; omega)]
    show (vs ++ [vs.getD (-1 + (vs.length : Int)).toNat initialForm]).length =
      vs.length + 1
    rw [List.length_append]
    rfl

theorem redo_twice_duplicates_witness :
    2 ≤ ([exA, exB] : List FormSnapshot).length ∧
    ((redo (undo (runEdits [exA, exB])).2).1 =
        some ([exA, exB].getLastD initialForm) ∧
     (redo (undo (runEdits [exA, exB])).2).2.formStateHistory.length =
        [exA, exB].length ∧
     (redo (redo (undo (runEdits [exA, exB])).2).2).1 =
        some ([exA, exB].getLastD initialForm) ∧
     (redo (redo (undo (runEdits [exA, exB])).2).2).2.formStateHistory.length =
        [exA, exB].length + 1) :=
  ⟨by decide, redo_twice_duplicates [exA, exB] (by decide)⟩

/-- Concrete refutation of C1 as stated: after the two edits `exA, exB`
(`k = 2`), one undo and two consecutive redos, the history holds 3 entries,
not 2 — the second redo appended a duplicate. -/
theorem redo_twice_cex :
    (redo (redo (undo (runEdits [exA, exB])).2).2).2.formStateHistory.length ≠
      2 := by
  decide

end MyForm
